import Mathlib

/-!
Shallow embedding of the JSalas-RPA mcp-server repository.

Part 1 embeds the code that is present under src/: the dice-roll tool of
src/server.ts, and the Google Apps Script of src/unnamed/part_000
(extractEmail and the per-message logic of procesarCorreosYSubirAGCS).

Part 2 models, from the spec, the invoice-to-SAP pipeline (SupplierResolver,
PurchaseOrderMatcher, PayloadBuilder, SapSession, tool envelopes) whose
Python implementation is not included under src/.
-/

namespace Spec2Proof

/-! ## src/server.ts : the roll tool -/

/-- The dice library `roll` is an external npm dependency; it is modelled as a
function that either returns a numeric result or throws with a message. -/
def RollFn : Type := String → Except String Int

/-- Embedding of the execute function of the roll tool in src/server.ts:
`String(roll(args.diceRollExpression))` on success, and when `roll` throws,
the string `Error parsing dice expression: ` followed by the error message. -/
def executeRoll (roll : RollFn) (expr : String) : String :=
  match roll expr with
  | Except.ok n => toString n
  | Except.error m => "Error parsing dice expression: " ++ m

/-! ## src/unnamed/part_000 : extractEmail

The function is `fullAddress.match(/<([^>]+)>/)` returning `match[1]` when the
regex matches and the input unchanged otherwise. The regex engine scans left to
right: a match at a position requires a left angle bracket, then a nonempty run
of characters other than a right angle bracket, then a right angle bracket; the
captured group is the run. -/

/-- Left-to-right scan of the regex over the character list; returns the
captured group of the leftmost match, if any. -/
def findAngleMatch : List Char → Option (List Char)
  | [] => Option.none
  | c :: rest =>
    if c = '<' then
      let run := rest.takeWhile (fun x => x != '>')
      if run ≠ [] ∧ (rest.drop run.length).head? = some '>' then some run
      else findAngleMatch rest
    else findAngleMatch rest

/-- Embedding of extractEmail from src/unnamed/part_000. -/
def extractEmail (s : String) : String :=
  match findAngleMatch s.toList with
  | some run => String.mk run
  | Option.none => s

/-- The claim's reading of extractEmail: the substring strictly between the
first left angle bracket of the input and the next right angle bracket after
it, when the input contains an angle-bracketed segment; otherwise the input
unchanged. Written from the claim's words, for comparison with the source. -/
def claimedExtractEmail (s : String) : String :=
  let cs := s.toList
  if cs.any (fun c => c == '<') then
    let after := (cs.dropWhile (fun c => c != '<')).drop 1
    if after.any (fun c => c == '>') then
      String.mk (after.takeWhile (fun c => c != '>'))
    else s
  else s

/-! ## src/unnamed/part_000 : per-message logic of procesarCorreosYSubirAGCS -/

/-- A Gmail attachment as seen by the script: its content type and file name. -/
structure Attachment where
  contentType : String
  name : String
deriving DecidableEq

/-- Allowed MIME types from procesarCorreosYSubirAGCS. -/
def allowedMimeTypes : List String :=
  ["application/pdf", "application/vnd.openxmlformats-officedocument",
   "application/msword", "application/vnd.ms-excel", "text/plain"]

/-- Prefix test on character lists. -/
def isPre : List Char → List Char → Bool
  | [], _ => true
  | _ :: _, [] => false
  | a :: as, b :: bs => a == b && isPre as bs

/-- Substring test on character lists (needle, haystack), modelling the
JavaScript `String.prototype.includes`. -/
def containsSub (needle hay : List Char) : Bool :=
  (List.range (hay.length + 1)).any (fun i => isPre needle (hay.drop i))

/-- The check `allowedMimeTypes.some(type => contentType.includes(type))`. -/
def isAllowedType (ct : String) : Bool :=
  allowedMimeTypes.any (fun t => containsSub t.toList ct.toList)

/-- Scan of the attachment loop: for each attachment with an allowed MIME
type an upload is attempted; the oracle `upload` yields `some code` for an
HTTP response with that status and `none` for a thrown exception (caught by
the inner try/catch, after which the loop continues). On the first code-200
upload the webhook is sent and the loop breaks. Returns (successful uploads,
webhooks sent). -/
def processAttachments (upload : Attachment → Option Nat) :
    List Attachment → Nat × Nat
  | [] => (0, 0)
  | a :: rest =>
    if isAllowedType a.contentType then
      if upload a = some 200 then (1, 1)
      else processAttachments upload rest
    else processAttachments upload rest

/-- Outcome of processing one message. -/
structure MessageOutcome where
  successfulUploads : Nat
  webhooksSent : Nat
  markedRead : Bool
deriving DecidableEq

/-- Embedding of the per-message block of procesarCorreosYSubirAGCS: unread
messages have their attachments scanned, and the message is marked read
exactly when `procesado` was set, i.e. when some upload returned 200. -/
def processMessage (upload : Attachment → Option Nat) (unread : Bool)
    (attachments : List Attachment) : MessageOutcome :=
  if unread then
    let r := processAttachments upload attachments
    ⟨r.1, r.2, decide (0 < r.1)⟩
  else ⟨0, 0, false⟩

/-- A character list in which every left angle bracket is immediately followed
by a right angle bracket: such a prefix consists of ordinary characters and
empty bracket pairs only, so the regex scan finds no match starting in it. -/
inductive EmptyPairsOnly : List Char → Prop
  | nil : EmptyPairsOnly []
  | pair (rest : List Char) : EmptyPairsOnly rest →
      EmptyPairsOnly ('<' :: '>' :: rest)
  | other (c : Char) (rest : List Char) : c ≠ '<' → EmptyPairsOnly rest →
      EmptyPairsOnly (c :: rest)

/-! ## Helper lemmas for the source-embedded functions -/

theorem findAngleMatch_append (pre mid post : List Char)
    (h1 : '<' ∉ pre) (h2 : '>' ∉ mid) (h3 : mid ≠ []) :
    findAngleMatch (pre ++ '<' :: (mid ++ '>' :: post)) = some mid := by
  induction pre with
  | nil =>
    simp only [List.nil_append, findAngleMatch, if_pos rfl]
    have htw : (mid ++ '>' :: post).takeWhile (fun x => x != '>') = mid := by
      rw [List.takeWhile_append_of_pos]
      · simp [List.takeWhile_cons]
      · intro a ha
        simp only [bne_iff_ne, ne_eq]
        intro hcontra
        exact h2 (hcontra ▸ ha)
    rw [htw]
    have hdrop : (mid ++ '>' :: post).drop mid.length = '>' :: post :=
      List.drop_left mid ('>' :: post)
    rw [hdrop]
    simp [h3]
  | cons c cs ih =>
    have hc : c ≠ '<' := fun h => h1 (h ▸ List.mem_cons_self c cs)
    have hcs : '<' ∉ cs := fun h => h1 (List.mem_cons_of_mem c h)
    simp only [List.cons_append, findAngleMatch, if_neg hc]
    exact ih hcs

theorem findAngleMatch_pair_step (rest : List Char) :
    findAngleMatch ('<' :: '>' :: rest) = findAngleMatch ('>' :: rest) := by
  simp [findAngleMatch, List.takeWhile_cons]

theorem findAngleMatch_gt_step (rest : List Char) :
    findAngleMatch ('>' :: rest) = findAngleMatch rest := by
  simp [findAngleMatch]

theorem findAngleMatch_emptyPairs (l : List Char) (h : EmptyPairsOnly l) :
    findAngleMatch l = Option.none := by
  induction h with
  | nil => rfl
  | pair rest hr ih =>
    rw [findAngleMatch_pair_step, findAngleMatch_gt_step, ih]
  | other c rest hc hr ih =>
    simp only [findAngleMatch, if_neg hc]
    exact ih

theorem findAngleMatch_leftmost (pre mid post : List Char)
    (hp : EmptyPairsOnly pre) (h2 : '>' ∉ mid) (h3 : mid ≠ []) :
    findAngleMatch (pre ++ '<' :: (mid ++ '>' :: post)) = some mid := by
  induction hp with
  | nil =>
    exact findAngleMatch_append [] mid post (by simp) h2 h3
  | pair rest hr ih =>
    simp only [List.cons_append]
    rw [findAngleMatch_pair_step, findAngleMatch_gt_step]
    exact ih
  | other c rest hc hr ih =>
    simp only [List.cons_append, findAngleMatch, if_neg hc]
    exact ih

theorem findAngleMatch_of_no_lt (l : List Char) (h : '<' ∉ l) :
    findAngleMatch l = Option.none := by
  induction l with
  | nil => rfl
  | cons c cs ih =>
    have hc : c ≠ '<' := fun hh => h (hh ▸ List.mem_cons_self c cs)
    have hcs : '<' ∉ cs := fun hh => h (List.mem_cons_of_mem c hh)
    simp only [findAngleMatch, if_neg hc]
    exact ih hcs

theorem processAttachments_spec (upload : Attachment → Option Nat)
    (atts : List Attachment) :
    (processAttachments upload atts).1 ≤ 1 ∧
    (processAttachments upload atts).2 = (processAttachments upload atts).1 ∧
    (0 < (processAttachments upload atts).1 ↔
      ∃ a ∈ atts, isAllowedType a.contentType = true ∧ upload a = some 200) := by
  induction atts with
  | nil => simp [processAttachments]
  | cons a rest ih =>
    by_cases hall : isAllowedType a.contentType
    · by_cases hup : upload a = some 200
      · refine ⟨?_, ?_, ?_⟩ <;>
          simp [processAttachments, hall, hup]
      · obtain ⟨ih1, ih2, ih3⟩ := ih
        refine ⟨?_, ?_, ?_⟩ <;>
          simp_all [processAttachments, hall, hup]
    · obtain ⟨ih1, ih2, ih3⟩ := ih
      refine ⟨?_, ?_, ?_⟩ <;>
        simp_all [processAttachments, hall]

/-! ## Theorems about the source-embedded functions -/

/-- C8: for every input string, the roll tool's execute function returns a
string and never propagates an exception: when the parser throws, execute
returns the string `Error parsing dice expression: ` followed by the parser's
error message, and on success the stringified roll result. -/
theorem roll_execute_total (roll : RollFn) (expr : String) :
    (∀ n, roll expr = Except.ok n → executeRoll roll expr = toString n) ∧
    (∀ m, roll expr = Except.error m →
      executeRoll roll expr = "Error parsing dice expression: " ++ m) := by
  constructor
  · intro n h; simp [executeRoll, h]
  · intro m h; simp [executeRoll, h]

theorem roll_execute_total_witness :
    executeRoll (fun _ => Except.ok 7) "2d6 + 1d4" = "7" ∧
    executeRoll (fun _ => Except.error "bad token") "zzz"
      = "Error parsing dice expression: bad token" :=
  ⟨(roll_execute_total (fun _ => Except.ok 7) "2d6 + 1d4").1 7 rfl,
   (roll_execute_total (fun _ => Except.error "bad token") "zzz").2 "bad token" rfl⟩

/-- C1 counterexample: the execute function of the server's registered tool
returns the bare string of the roll result, which carries no status tag; it is
not a tagged envelope with a status field. -/
theorem roll_tool_returns_bare_string :
    executeRoll (fun _ => Except.ok 7) "2d6" = "7" ∧
    containsSub "status".toList "7".toList = false := by
  exact ⟨rfl, by decide⟩

/-- C9 counterexample: on the input with an empty leading bracket pair,
extractEmail skips the first left angle bracket (the regex requires a nonempty
group) and returns the content of the later segment, while the claim's reading
returns the empty substring between the first left angle bracket and the next
right angle bracket. -/
theorem extractEmail_first_bracket_counterexample :
    extractEmail "<>x<c>" = "c" ∧ claimedExtractEmail "<>x<c>" = "" ∧
    extractEmail "<>x<c>" ≠ claimedExtractEmail "<>x<c>" := by
  refine ⟨rfl, rfl, by decide⟩

/-- C9 amended: extractEmail returns the captured group of the leftmost match
of the regex — the content of the first left angle bracket that is followed by
at least one character other than a right angle bracket and then a right angle
bracket — where a prefix made of ordinary characters and empty bracket pairs
holds no match; inputs whose whole text is such a matchless prefix, in
particular inputs with no left angle bracket and the bare empty pair, are
returned unchanged. -/
theorem extractEmail_regex_behavior :
    (∀ pre mid post : List Char, EmptyPairsOnly pre → '>' ∉ mid → mid ≠ [] →
      extractEmail (String.mk (pre ++ '<' :: (mid ++ '>' :: post))) = String.mk mid) ∧
    (∀ s : String, EmptyPairsOnly s.toList → extractEmail s = s) ∧
    (∀ s : String, '<' ∉ s.toList → extractEmail s = s) ∧
    extractEmail "<>" = "<>" := by
  refine ⟨?_, ?_, ?_, ?_⟩
  · intro pre mid post h1 h2 h3
    unfold extractEmail
    have hl : (String.mk (pre ++ '<' :: (mid ++ '>' :: post))).toList
        = pre ++ '<' :: (mid ++ '>' :: post) := rfl
    rw [hl, findAngleMatch_leftmost pre mid post h1 h2 h3]
  · intro s h
    unfold extractEmail
    rw [findAngleMatch_emptyPairs s.toList h]
  · intro s h
    unfold extractEmail
    rw [findAngleMatch_of_no_lt s.toList h]
  · rfl

theorem extractEmail_regex_behavior_witness :
    extractEmail "x<>y<z>w" = "z" ∧
    extractEmail "Name <a@b.c>" = "a@b.c" ∧
    extractEmail "no brackets" = "no brackets" := by
  refine ⟨?_, ?_, ?_⟩
  · have h := extractEmail_regex_behavior.1 ['x', '<', '>', 'y'] ['z'] ['w']
      (EmptyPairsOnly.other 'x' _ (by decide)
        (EmptyPairsOnly.pair _ (EmptyPairsOnly.other 'y' _ (by decide)
          EmptyPairsOnly.nil)))
      (by decide) (by decide)
    have e1 : String.mk (['x', '<', '>', 'y'] ++ '<' :: (['z'] ++ '>' :: ['w']))
        = "x<>y<z>w" := by decide
    have e2 : String.mk ['z'] = "z" := by decide
    rw [e1, e2] at h
    exact h
  · have h := extractEmail_regex_behavior.1 ['N', 'a', 'm', 'e', ' ']
      ['a', '@', 'b', '.', 'c'] []
      (EmptyPairsOnly.other 'N' _ (by decide) (EmptyPairsOnly.other 'a' _ (by decide)
        (EmptyPairsOnly.other 'm' _ (by decide) (EmptyPairsOnly.other 'e' _ (by decide)
          (EmptyPairsOnly.other ' ' _ (by decide) EmptyPairsOnly.nil)))))
      (by decide) (by decide)
    have e1 : String.mk (['N', 'a', 'm', 'e', ' '] ++ '<' ::
        (['a', '@', 'b', '.', 'c'] ++ '>' :: [])) = "Name <a@b.c>" := by decide
    have e2 : String.mk ['a', '@', 'b', '.', 'c'] = "a@b.c" := by decide
    rw [e1, e2] at h
    exact h
  · exact extractEmail_regex_behavior.2.2.1 "no brackets" (by decide)

/-- C10: a message is marked read only if one of its attachments was uploaded
with HTTP 200; the attachment loop breaks after the first successful upload, so
at most one attachment is uploaded and at most one webhook is sent per message;
when every upload fails the unread state is unchanged. -/
theorem process_message_mark_read (upload : Attachment → Option Nat)
    (unread : Bool) (atts : List Attachment) :
    (processMessage upload unread atts).successfulUploads ≤ 1 ∧
    (processMessage upload unread atts).webhooksSent
      = (processMessage upload unread atts).successfulUploads ∧
    ((processMessage upload unread atts).markedRead = true →
      ∃ a ∈ atts, isAllowedType a.contentType = true ∧ upload a = some 200) ∧
    ((∀ a ∈ atts, upload a ≠ some 200) →
      (processMessage upload unread atts).markedRead = false) := by
  obtain ⟨h1, h2, h3⟩ := processAttachments_spec upload atts
  cases unread with
  | false => simp [processMessage]
  | true =>
    simp only [processMessage, if_pos]
    refine ⟨h1, h2, ?_, ?_⟩
    · intro hm
      exact h3.mp (by simpa using hm)
    · intro hall
      simp only [decide_eq_false_iff_not]
      intro hpos
      obtain ⟨a, ha, -, h200⟩ := h3.mp hpos
      exact hall a ha h200

theorem process_message_mark_read_witness :
    (processMessage (fun _ => some 500) true
      [⟨"application/pdf", "f.pdf"⟩]).markedRead = false := by
  refine (process_message_mark_read (fun _ => some 500) true
    [⟨"application/pdf", "f.pdf"⟩]).2.2.2 ?_
  intro a ha
  simp

/-! ## Part 2: the invoice-to-SAP pipeline, modelled from the spec

The Python implementation (tools.py, services/sap_operations.py) is not under
src/; the definitions below are modelled from the spec, following its design
note of an ordered list of strategies that stops at the first decision. -/

/-- Modelled from the spec: the confidence tier of a supplier match (spec data
model, MatchResult); the Python implementation is not under src/. -/
inductive Tier
  | exact_tax
  | fuzzy_name
  | keyword
  | ai_fallback
  | none
deriving DecidableEq

/-- Modelled from the spec: a supplier master-data record (code, legal name,
tax number); the Python implementation is not under src/. -/
structure SupplierRecord where
  code : String
  name : String
  taxNumber : String
deriving DecidableEq

/-- Modelled from the spec: the result of one supplier resolution — resolved
supplier (or none), match tier, numeric confidence score, and runner-up
candidates for audit; the Python implementation is not under src/. -/
structure MatchResult where
  supplier : Option SupplierRecord
  tier : Tier
  score : ℚ
  runnerUps : List SupplierRecord
deriving DecidableEq

/-- Modelled from the spec: tax-number normalization — strip non-alphanumeric
characters and uppercase. -/
def normalizeTax (s : String) : String :=
  String.mk ((s.toList.filter (fun c => c.isAlphanum)).map Char.toUpper)

/-- Modelled from the spec: case/whitespace/punctuation-insensitive name
tokenization — lowercase, with every non-alphanumeric character treated as a
separator. -/
def nameTokens (s : String) : List String :=
  ((String.mk (s.toList.map
      (fun c => if c.isAlphanum then c.toLower else ' '))).splitOn " ").filter
    (fun t => t ≠ "")

/-- Modelled from the spec: normalized token-overlap similarity between two
names (Dice coefficient over the deduplicated token sets), a rational in
the interval from 0 to 1. -/
def similarity (a b : String) : ℚ :=
  let ta := (nameTokens a).dedup
  let tb := (nameTokens b).dedup
  if ta.length + tb.length = 0 then 0
  else (2 * ((ta.filter (fun t => t ∈ tb)).length) : ℚ) / (ta.length + tb.length)

/-- Modelled from the spec: stopwords stripped before keyword matching. -/
def stopwords : List String :=
  ["the", "and", "for", "los", "las", "del", "sa", "srl", "ltda", "inc", "llc"]

/-- Modelled from the spec: significant words of the invoice supplier name —
tokens of length at least 3 with stopwords stripped. -/
def significantTokens (s : String) : List String :=
  (nameTokens s).filter (fun t => 3 ≤ t.length ∧ t ∉ stopwords)

/-- Lowercased character list of a name, for substring containment tests. -/
def lowerChars (s : String) : List Char :=
  s.toList.map Char.toLower

/-- The candidate (starting from a default) whose code is lexicographically
smallest; earlier list positions win ties. -/
def minByCode : SupplierRecord → List SupplierRecord → SupplierRecord
  | b, [] => b
  | b, c :: rest => if c.code < b.code then minByCode c rest else minByCode b rest

/-- Preference order for the fuzzy tier: strictly higher similarity to the
invoice name wins, ties broken by candidate code ascending. -/
def fuzzyBetter (inv : String) (a b : SupplierRecord) : Bool :=
  decide (similarity inv b.name < similarity inv a.name) ||
    (similarity inv a.name == similarity inv b.name && decide (a.code < b.code))

/-- The best candidate under a boolean preference, starting from a default. -/
def bestBy (better : SupplierRecord → SupplierRecord → Bool) :
    SupplierRecord → List SupplierRecord → SupplierRecord
  | b, [] => b
  | b, c :: rest => if better c b then bestBy better c rest else bestBy better b rest

/-- Modelled from the spec: cascade strategy 1, exact tax-number match. Both
sides are normalized; with a unique match, that candidate is returned with tier
exact_tax and score 1; with several (data anomaly) the lexicographically
smallest code is selected and the other matches land in the runner-up list. -/
def strategyExactTax (tax : String) (cands : List SupplierRecord) :
    Option MatchResult :=
  match cands.filter (fun c => normalizeTax c.taxNumber == normalizeTax tax) with
  | [] => Option.none
  | m :: rest =>
    let best := minByCode m rest
    some ⟨some best, Tier.exact_tax, 1, (m :: rest).erase best⟩

/-- Modelled from the spec: cascade strategy 2, fuzzy name match. If the
maximum similarity is at least 0.60, that candidate is returned with tier
fuzzy_name and its score; ties break by candidate code ascending. -/
def strategyFuzzyName (name : String) (cands : List SupplierRecord) :
    Option MatchResult :=
  match cands.filter (fun c => decide ((6 : ℚ)/10 ≤ similarity name c.name)) with
  | [] => Option.none
  | m :: rest =>
    let best := bestBy (fuzzyBetter name) m rest
    some ⟨some best, Tier.fuzzy_name, similarity name best.name,
      (m :: rest).erase best⟩

/-- Fraction of a candidate name's tokens that contain some significant
invoice-name token as a substring. -/
def keywordScore (invName candName : String) : ℚ :=
  let toks := significantTokens invName
  let ct := nameTokens candName
  if ct.length = 0 then 0
  else ((ct.filter (fun t =>
      toks.any (fun w => containsSub w.toList t.toList))).length : ℚ) / ct.length

/-- Modelled from the spec: cascade strategy 3, keyword match. If some
candidate name contains every significant invoice-name token as a substring,
that candidate is returned with tier keyword and the fraction of its name
tokens matched as score; the smallest code wins when several qualify. -/
def strategyKeyword (name : String) (cands : List SupplierRecord) :
    Option MatchResult :=
  let toks := significantTokens name
  if toks = [] then Option.none
  else
    match cands.filter
        (fun c => toks.all (fun w => containsSub (lowerChars w) (lowerChars c.name))) with
    | [] => Option.none
    | m :: rest =>
      let best := minByCode m rest
      some ⟨some best, Tier.keyword, keywordScore name best.name, []⟩

/-- The empty match result used when every strategy declines. -/
def noMatch : MatchResult :=
  ⟨Option.none, Tier.none, 0, []⟩

/-- Modelled from the spec: the fixed confidence floor of the AI fallback. -/
def aiConfidenceFloor : ℚ := 7/10

/-- Modelled from the spec: cascade strategy 4, the single AI-fallback call.
The collaborator is modelled as a thunk returning its reply (a candidate with a
stated confidence, or nothing); the second component counts invocations. -/
def strategyAiFallback (ai : Unit → Option (SupplierRecord × ℚ)) :
    MatchResult × Nat :=
  match ai () with
  | some (c, conf) =>
    if aiConfidenceFloor ≤ conf then (⟨some c, Tier.ai_fallback, conf, []⟩, 1)
    else (noMatch, 1)
  | Option.none => (noMatch, 1)

/-- Modelled from the spec: SupplierResolver.resolve as the ordered cascade,
stopping at the first strategy that yields a decision; with an empty candidate
set it returns none immediately without invoking the fallback. The second
component counts AI-fallback invocations. -/
def resolveAux (name tax : String) (cands : List SupplierRecord)
    (ai : Unit → Option (SupplierRecord × ℚ)) : MatchResult × Nat :=
  if cands = [] then (noMatch, 0)
  else
    match strategyExactTax tax cands with
    | some r => (r, 0)
    | Option.none =>
      match strategyFuzzyName name cands with
      | some r => (r, 0)
      | Option.none =>
        match strategyKeyword name cands with
        | some r => (r, 0)
        | Option.none => strategyAiFallback ai

/-- The MatchResult of one resolution. -/
def resolve (name tax : String) (cands : List SupplierRecord)
    (ai : Unit → Option (SupplierRecord × ℚ)) : MatchResult :=
  (resolveAux name tax cands ai).1

/-! ## PurchaseOrderMatcher, modelled from the spec -/

/-- Modelled from the spec: an invoice line item — product code, quantity,
description, unit price, discount, subtotal; the Python implementation is not
under src/. Amounts are rationals (currency units). -/
structure InvLine where
  productCode : String
  quantity : ℚ
  description : String
  unitPrice : ℚ
  discount : ℚ
  subtotal : ℚ
deriving DecidableEq

/-- Modelled from the spec: a purchase-order line item — product code, open
quantity, unit price — extended with the description used by the fuzzy
pairing step of the matcher. -/
structure POLine where
  productCode : String
  description : String
  openQty : ℚ
  unitPrice : ℚ
deriving DecidableEq

/-- Modelled from the spec: a purchase order — PO number, supplier code,
ordered sequence of line items. -/
structure PurchaseOrder where
  number : String
  supplierCode : String
  lines : List POLine
deriving DecidableEq

/-- Modelled from the spec: the outcome of reconciling one invoice line item —
paired exactly, paired fuzzily, or unmatched — annotated with the quantity and
price deltas of the pairing. -/
inductive Outcome
  | pairedExact (item : InvLine) (poNumber : String) (line : POLine)
      (qtyDelta priceDelta : ℚ)
  | pairedFuzzy (item : InvLine) (poNumber : String) (line : POLine)
      (qtyDelta priceDelta : ℚ)
  | unmatched (item : InvLine)
deriving DecidableEq

/-- The invoice line item an outcome is about. -/
def Outcome.item : Outcome → InvLine
  | .pairedExact i _ _ _ _ => i
  | .pairedFuzzy i _ _ _ _ => i
  | .unmatched i => i

/-- First line of a PO with the exact product code and a positive open
balance; on success the matched quantity is subtracted from that line's open
balance and the updated line list is returned. -/
def takeExactLine (code : String) (qty : ℚ) :
    List POLine → Option (POLine × List POLine)
  | [] => Option.none
  | l :: rest =>
    if l.productCode = code ∧ 0 < l.openQty then
      some (l, { l with openQty := l.openQty - qty } :: rest)
    else
      match takeExactLine code qty rest with
      | some (m, rest') => some (m, l :: rest')
      | Option.none => Option.none

/-- First-fit exact product-code pairing across the purchase orders in list
order; returns the PO number, the paired line, and the updated order book. -/
def findExact (code : String) (qty : ℚ) :
    List PurchaseOrder → Option (String × POLine × List PurchaseOrder)
  | [] => Option.none
  | po :: rest =>
    match takeExactLine code qty po.lines with
    | some (l, lines') => some (po.number, l, { po with lines := lines' } :: rest)
    | Option.none =>
      match findExact code qty rest with
      | some (n, l, rest') => some (n, l, po :: rest')
      | Option.none => Option.none

/-- First line of a PO whose description is similar to the invoice item's
description at the stricter threshold 0.75, with a positive open balance. -/
def takeFuzzyLine (desc : String) (qty : ℚ) :
    List POLine → Option (POLine × List POLine)
  | [] => Option.none
  | l :: rest =>
    if (3 : ℚ)/4 ≤ similarity desc l.description ∧ 0 < l.openQty then
      some (l, { l with openQty := l.openQty - qty } :: rest)
    else
      match takeFuzzyLine desc qty rest with
      | some (m, rest') => some (m, l :: rest')
      | Option.none => Option.none

/-- First-fit description-similarity pairing across the purchase orders. -/
def findFuzzy (desc : String) (qty : ℚ) :
    List PurchaseOrder → Option (String × POLine × List PurchaseOrder)
  | [] => Option.none
  | po :: rest =>
    match takeFuzzyLine desc qty po.lines with
    | some (l, lines') => some (po.number, l, { po with lines := lines' } :: rest)
    | Option.none =>
      match findFuzzy desc qty rest with
      | some (n, l, rest') => some (n, l, po :: rest')
      | Option.none => Option.none

/-- Insertion into a list of purchase orders sorted by PO number ascending. -/
def insertPO (p : PurchaseOrder) : List PurchaseOrder → List PurchaseOrder
  | [] => [p]
  | q :: rest => if q.number < p.number then q :: insertPO p rest else p :: q :: rest

/-- Sort the purchase orders by PO number ascending (oldest first). -/
def sortPOs : List PurchaseOrder → List PurchaseOrder
  | [] => []
  | p :: rest => insertPO p (sortPOs rest)

/-- Modelled from the spec: the reconciliation loop — for each invoice line
item in order, attempt an exact product-code pairing (first-fit across the
sorted order book, decrementing the open balance), then a description
similarity pairing at the stricter threshold, else mark it unmatched; the
updated order book threads into the next item. -/
def reconcileGo : List InvLine → List PurchaseOrder → List Outcome
  | [], _ => []
  | it :: rest, pos =>
    match findExact it.productCode it.quantity pos with
    | some (n, l, pos') =>
      Outcome.pairedExact it n l (it.quantity - l.openQty)
          (it.unitPrice - l.unitPrice) :: reconcileGo rest pos'
    | Option.none =>
      match findFuzzy it.description it.quantity pos with
      | some (n, l, pos') =>
        Outcome.pairedFuzzy it n l (it.quantity - l.openQty)
            (it.unitPrice - l.unitPrice) :: reconcileGo rest pos'
      | Option.none => Outcome.unmatched it :: reconcileGo rest pos

/-- Modelled from the spec: PurchaseOrderMatcher.match — restrict the order
book to the resolved supplier, sort by PO number ascending, and reconcile the
invoice line items in order. Named reconcile because match is a keyword. -/
def reconcile (supplierCode : String) (items : List InvLine)
    (openPOs : List PurchaseOrder) : List Outcome :=
  reconcileGo items
    (sortPOs (openPOs.filter (fun p => p.supplierCode == supplierCode)))

/-! ## PayloadBuilder, modelled from the spec -/

/-- Modelled from the spec: the extracted invoice handed to the core —
invoice number (SupplierInvoiceIDByInvcgParty), supplier name and tax number,
document date, gross amount, line items; the Python implementation is not
under src/. -/
structure Invoice where
  invoiceNumber : String
  supplierName : String
  supplierTaxNumber : String
  documentDate : String
  grossAmount : ℚ
  items : List InvLine
deriving DecidableEq

/-- Modelled from the spec: the validation failures of PayloadBuilder. -/
inductive ValidationError
  | noSupplierMatch
  | missingField (field : String)
  | badDate (value : String)
  | amountMismatch (difference : ℚ)
deriving DecidableEq

/-- Check that a string is a canonical ISO-8601 date, four digits, hyphen,
two digits, hyphen, two digits. -/
def isIsoDate (s : String) : Bool :=
  match s.toList with
  | [y1, y2, y3, y4, c1, m1, m2, c2, d1, d2] =>
    y1.isDigit && y2.isDigit && y3.isDigit && y4.isDigit &&
      c1 == '-' && m1.isDigit && m2.isDigit && c2 == '-' &&
      d1.isDigit && d2.isDigit
  | _ => false

/-- Modelled from the spec: the tolerance for reconciling the gross amount
with the sum of line-item subtotals, 0.01 currency units. -/
def amountTolerance : ℚ := 1/100

/-- Modelled from the spec: the fully-typed SAP-bound document — numeric
fields as numbers, the document date in canonical form. -/
structure SapPayload where
  supplierInvoiceIDByInvcgParty : String
  documentDate : String
  supplierCode : String
  invoiceGrossAmount : ℚ
  reconciled : List Outcome
deriving DecidableEq

/-- Modelled from the spec: PayloadBuilder.build — a pure transform that fails
with a ValidationError when the match tier is none, a required invoice field is
missing or empty, the document date is not canonical, or the gross amount does
not reconcile with the sum of line-item subtotals within the tolerance. -/
def build (inv : Invoice) (mr : MatchResult) (recon : List Outcome) :
    Except ValidationError SapPayload :=
  if mr.tier = Tier.none then Except.error ValidationError.noSupplierMatch
  else
    match mr.supplier with
    | Option.none => Except.error ValidationError.noSupplierMatch
    | some sup =>
      if inv.invoiceNumber = "" then
        Except.error (ValidationError.missingField "SupplierInvoiceIDByInvcgParty")
      else if inv.documentDate = "" then
        Except.error (ValidationError.missingField "DocumentDate")
      else if ¬ isIsoDate inv.documentDate then
        Except.error (ValidationError.badDate inv.documentDate)
      else
        let total := (inv.items.map (fun i => i.subtotal)).sum
        if amountTolerance < |inv.grossAmount - total| then
          Except.error (ValidationError.amountMismatch (inv.grossAmount - total))
        else
          Except.ok ⟨inv.invoiceNumber, inv.documentDate, sup.code,
            inv.grossAmount, recon⟩

/-! ## SapSession, modelled from the spec -/

/-- Modelled from the spec: the states of the CSRF submission state machine. -/
inductive SapState
  | unauthenticated
  | tokenFetched
  | submitted
  | acknowledged
  | failed
deriving DecidableEq

/-- Modelled from the spec: the surfaced result of one submission. -/
inductive SubmitResult
  | acknowledged (documentId : String)
  | authError
  | upstreamError (status : Nat)
deriving DecidableEq

/-- Whether an HTTP status code is a success (2xx). -/
def is2xx (c : Nat) : Bool :=
  decide (200 ≤ c) && decide (c < 300)

/-- The trace of one submission: the visited states in order, the number of
POST attempts, the number of token refreshes, and the surfaced result. -/
structure SubmitTrace where
  states : List SapState
  posts : Nat
  refreshes : Nat
  result : SubmitResult
deriving DecidableEq

/-- Modelled from the spec: one SapSession submission. The oracle fetchToken
gives the nth token fetch (none is a fetch failure), the oracle post gives the
status code of the nth POST. A 403 on the first POST transitions back to
unauthenticated, refreshes the token exactly once and retries the POST exactly
once; any failure after that refresh is terminal. -/
def submitInvoice (fetchToken : Nat → Option String) (post : Nat → Nat)
    (docId : String) : SubmitTrace :=
  match fetchToken 0 with
  | Option.none =>
    ⟨[SapState.unauthenticated, SapState.failed], 0, 0, SubmitResult.authError⟩
  | some _ =>
    let c1 := post 0
    if is2xx c1 then
      ⟨[SapState.unauthenticated, SapState.tokenFetched, SapState.submitted,
        SapState.acknowledged], 1, 0, SubmitResult.acknowledged docId⟩
    else if c1 = 403 then
      match fetchToken 1 with
      | Option.none =>
        ⟨[SapState.unauthenticated, SapState.tokenFetched, SapState.submitted,
          SapState.unauthenticated, SapState.failed], 1, 1, SubmitResult.authError⟩
      | some _ =>
        let c2 := post 1
        if is2xx c2 then
          ⟨[SapState.unauthenticated, SapState.tokenFetched, SapState.submitted,
            SapState.unauthenticated, SapState.tokenFetched, SapState.submitted,
            SapState.acknowledged], 2, 1, SubmitResult.acknowledged docId⟩
        else
          ⟨[SapState.unauthenticated, SapState.tokenFetched, SapState.submitted,
            SapState.unauthenticated, SapState.tokenFetched, SapState.submitted,
            SapState.failed], 2, 1, SubmitResult.upstreamError c2⟩
    else
      ⟨[SapState.unauthenticated, SapState.tokenFetched, SapState.submitted,
        SapState.failed], 1, 0, SubmitResult.upstreamError c1⟩

/-! ## Tool envelopes, modelled from the spec -/

/-- Modelled from the spec: the status tag of the uniform tool response. -/
inductive ToolStatus
  | success
  | notFound
  | failure
deriving DecidableEq

/-- Modelled from the spec: the uniform response envelope — a status tag plus
either a data field or an error field. -/
structure ToolResponse (α : Type) where
  status : ToolStatus
  data : Option α
  errorMessage : Option String
deriving DecidableEq

/-- Modelled from the spec: the resolve_supplier tool operation (the tools.py
wrapper is not under src/) — a not_found status when the cascade ends at tier
none, a success envelope otherwise. -/
def resolveSupplierTool (name tax : String) (cands : List SupplierRecord)
    (ai : Unit → Option (SupplierRecord × ℚ)) : ToolResponse MatchResult :=
  let r := resolve name tax cands ai
  if r.tier = Tier.none then
    ⟨ToolStatus.notFound, Option.none, some "supplier not found"⟩
  else ⟨ToolStatus.success, some r, Option.none⟩

/-- Modelled from the spec: the match_purchase_orders tool operation. -/
def matchPurchaseOrdersTool (supplierCode : String) (items : List InvLine)
    (openPOs : List PurchaseOrder) : ToolResponse (List Outcome) :=
  ⟨ToolStatus.success, some (reconcile supplierCode items openPOs), Option.none⟩

/-- A diagnostic message for each validation failure. -/
def ValidationError.message : ValidationError → String
  | .noSupplierMatch => "no supplier match"
  | .missingField f => "missing field " ++ f
  | .badDate v => "bad date " ++ v
  | .amountMismatch _ => "gross amount mismatch"

/-- Modelled from the spec: the build_payload tool operation. -/
def buildPayloadTool (inv : Invoice) (mr : MatchResult)
    (recon : List Outcome) : ToolResponse SapPayload :=
  match build inv mr recon with
  | Except.ok p => ⟨ToolStatus.success, some p, Option.none⟩
  | Except.error e => ⟨ToolStatus.failure, Option.none, some e.message⟩

/-- Modelled from the spec: the submit_invoice tool operation. -/
def submitInvoiceTool (fetchToken : Nat → Option String) (post : Nat → Nat)
    (docId : String) : ToolResponse String :=
  match (submitInvoice fetchToken post docId).result with
  | SubmitResult.acknowledged d => ⟨ToolStatus.success, some d, Option.none⟩
  | SubmitResult.authError =>
    ⟨ToolStatus.failure, Option.none, some "AuthError"⟩
  | SubmitResult.upstreamError c =>
    ⟨ToolStatus.failure, Option.none, some ("UpstreamError " ++ toString c)⟩

/-! ## Theorems about the spec-modelled pipeline -/

/-- C3: with an empty candidate set the resolver returns tier none immediately
and the AI-fallback collaborator is not invoked. -/
theorem resolver_empty_candidates (name tax : String)
    (ai : Unit → Option (SupplierRecord × ℚ)) :
    (resolve name tax [] ai).tier = Tier.none ∧
    (resolveAux name tax [] ai).2 = 0 := by
  constructor <;> rfl

theorem reconcileGo_map_item (items : List InvLine) :
    ∀ pos, (reconcileGo items pos).map Outcome.item = items := by
  induction items with
  | nil => intro pos; rfl
  | cons it rest ih =>
    intro pos
    rcases hfe : findExact it.productCode it.quantity pos with - | ⟨n, l, pos'⟩
    · rcases hff : findFuzzy it.description it.quantity pos with - | ⟨n, l, pos'⟩
      · simp [reconcileGo, hfe, hff, Outcome.item, ih]
      · simp [reconcileGo, hfe, hff, Outcome.item, ih]
    · simp [reconcileGo, hfe, Outcome.item, ih]

/-- C4: every invoice line item appears in exactly one outcome, in order, and
the number of outcomes equals the number of invoice line items. -/
theorem matcher_covers_each_item (supplierCode : String) (items : List InvLine)
    (openPOs : List PurchaseOrder) :
    (reconcile supplierCode items openPOs).map Outcome.item = items ∧
    (reconcile supplierCode items openPOs).length = items.length := by
  have h := reconcileGo_map_item items
    (sortPOs (openPOs.filter (fun p => p.supplierCode == supplierCode)))
  refine ⟨h, ?_⟩
  have hlen := congrArg List.length h
  rw [List.length_map] at hlen
  exact hlen

theorem submitInvoice_posts_le (ft : Nat → Option String) (post : Nat → Nat)
    (d : String) : (submitInvoice ft post d).posts ≤ 2 := by
  unfold submitInvoice
  rcases ft 0 with - | t0
  · simp
  · dsimp only
    by_cases h1 : is2xx (post 0)
    · simp [h1]
    · rw [Bool.not_eq_true] at h1
      have hnot : is2xx 403 = false := by decide
      by_cases h2 : post 0 = 403
      · rcases ft 1 with - | t1
        · simp [h1, h2, hnot]
        · by_cases h3 : is2xx (post 1)
          · simp [h1, h2, h3, hnot]
          · rw [Bool.not_eq_true] at h3
            simp [h1, h2, h3, hnot]
      · simp [h1, h2]

/-- C6: a 403 on the first POST sends the session back to unauthenticated,
refreshes the token exactly once and retries the POST exactly once; a failure
of the retried POST is terminal (failed state, surfaced as an upstream error),
and no run of the session ever performs more than two POST attempts. -/
theorem sap_single_retry (fetchToken : Nat → Option String) (post : Nat → Nat)
    (docId : String) (h0 : (fetchToken 0).isSome) (h1 : (fetchToken 1).isSome)
    (h403 : post 0 = 403) :
    (submitInvoice fetchToken post docId).refreshes = 1 ∧
    (submitInvoice fetchToken post docId).posts = 2 ∧
    (submitInvoice fetchToken post docId).states.take 4 =
      [SapState.unauthenticated, SapState.tokenFetched, SapState.submitted,
        SapState.unauthenticated] ∧
    (is2xx (post 1) = false →
      (submitInvoice fetchToken post docId).result
          = SubmitResult.upstreamError (post 1) ∧
      (submitInvoice fetchToken post docId).states.getLast?
          = some SapState.failed) ∧
    (∀ ft2 p2 d2, (submitInvoice ft2 p2 d2).posts ≤ 2) := by
  obtain ⟨t0, ht0⟩ := Option.isSome_iff_exists.mp h0
  obtain ⟨t1, ht1⟩ := Option.isSome_iff_exists.mp h1
  have hnot : is2xx 403 = false := by decide
  by_cases hc : is2xx (post 1)
  · refine ⟨?_, ?_, ?_, ?_, fun ft2 p2 d2 => submitInvoice_posts_le ft2 p2 d2⟩ <;>
      simp [submitInvoice, ht0, ht1, h403, hnot, hc]
  · rw [Bool.not_eq_true] at hc
    refine ⟨?_, ?_, ?_, ?_, fun ft2 p2 d2 => submitInvoice_posts_le ft2 p2 d2⟩ <;>
      simp [submitInvoice, ht0, ht1, h403, hnot, hc]

theorem sap_single_retry_witness :
    (submitInvoice (fun _ => some "token") (fun _ => 403) "doc").posts = 2 ∧
    (submitInvoice (fun _ => some "token") (fun _ => 403) "doc").result
      = SubmitResult.upstreamError 403 := by
  have h := sap_single_retry (fun _ => some "token") (fun _ => 403) "doc"
    (by rfl) (by rfl) rfl
  exact ⟨h.2.1, (h.2.2.2.1 (by decide)).1⟩

theorem strategyAiFallback_calls_le (ai : Unit → Option (SupplierRecord × ℚ)) :
    (strategyAiFallback ai).2 ≤ 1 := by
  unfold strategyAiFallback
  split
  · split
    · simp
    · simp
  · simp

theorem resolveAux_calls_le (name tax : String) (cands : List SupplierRecord)
    (ai : Unit → Option (SupplierRecord × ℚ)) :
    (resolveAux name tax cands ai).2 ≤ 1 := by
  unfold resolveAux
  split
  · simp
  · split
    · simp
    · split
      · simp
      · split
        · simp
        · exact strategyAiFallback_calls_le ai

/-- C7: the resolver is deterministic — two runs on identical inputs, an
identical candidate snapshot and an identical AI-fallback reply produce the
same MatchResult — and the AI fallback is invoked at most once per
resolution. -/
theorem resolver_deterministic_single_ai_call (name tax : String)
    (cands : List SupplierRecord)
    (ai1 ai2 : Unit → Option (SupplierRecord × ℚ)) (h : ai1 () = ai2 ()) :
    resolveAux name tax cands ai1 = resolveAux name tax cands ai2 ∧
    (resolveAux name tax cands ai1).2 ≤ 1 := by
  have hsf : strategyAiFallback ai1 = strategyAiFallback ai2 := by
    unfold strategyAiFallback
    rw [h]
  constructor
  · unfold resolveAux
    rw [hsf]
  · exact resolveAux_calls_le name tax cands ai1

theorem resolver_deterministic_single_ai_call_witness :
    resolveAux "Acme Corp" "123" [⟨"S1", "Acme Corporation", "999"⟩]
        (fun _ => some (⟨"S1", "Acme Corporation", "999"⟩, 9/10))
      = resolveAux "Acme Corp" "123" [⟨"S1", "Acme Corporation", "999"⟩]
        (fun _ => some (⟨"S1", "Acme Corporation", "999"⟩, 9/10)) ∧
    (resolveAux "Acme Corp" "123" [⟨"S1", "Acme Corporation", "999"⟩]
        (fun _ => some (⟨"S1", "Acme Corporation", "999"⟩, 9/10))).2 ≤ 1 :=
  resolver_deterministic_single_ai_call "Acme Corp" "123"
    [⟨"S1", "Acme Corporation", "999"⟩]
    (fun _ => some (⟨"S1", "Acme Corporation", "999"⟩, 9/10))
    (fun _ => some (⟨"S1", "Acme Corporation", "999"⟩, 9/10)) rfl

theorem build_ok_facts (inv : Invoice) (mr : MatchResult)
    (recon : List Outcome) (p : SapPayload)
    (h : build inv mr recon = Except.ok p) :
    mr.tier ≠ Tier.none ∧ inv.invoiceNumber ≠ "" ∧ inv.documentDate ≠ "" ∧
    isIsoDate inv.documentDate = true ∧
    |inv.grossAmount - (inv.items.map (fun i => i.subtotal)).sum|
      ≤ amountTolerance ∧
    p.supplierInvoiceIDByInvcgParty = inv.invoiceNumber ∧
    p.documentDate = inv.documentDate ∧
    p.invoiceGrossAmount = inv.grossAmount := by
  unfold build at h
  by_cases h1 : mr.tier = Tier.none
  · simp [h1] at h
  · rw [if_neg h1] at h
    rcases hs : mr.supplier with - | sup
    · rw [hs] at h
      exact absurd h (by simp)
    · rw [hs] at h
      dsimp only at h
      by_cases h2 : inv.invoiceNumber = ""
      · simp [h2] at h
      · rw [if_neg h2] at h
        by_cases h3 : inv.documentDate = ""
        · simp [h3] at h
        · rw [if_neg h3] at h
          by_cases h4 : isIsoDate inv.documentDate
          · rw [if_neg (by simp [h4])] at h
            by_cases h5 : amountTolerance <
                |inv.grossAmount - (inv.items.map (fun i => i.subtotal)).sum|
            · simp [h5] at h
            · rw [if_neg h5] at h
              have hp := Except.ok.inj h
              refine ⟨h1, h2, h3, h4, not_lt.mp h5, ?_, ?_, ?_⟩ <;>
                rw [← hp]
          · rw [if_pos (by simp [h4])] at h
            exact absurd h (by simp)

theorem build_error_of (inv : Invoice) (mr : MatchResult) (recon : List Outcome)
    (h : mr.tier = Tier.none ∨ inv.invoiceNumber = "" ∨ inv.documentDate = "" ∨
      amountTolerance <
        |inv.grossAmount - (inv.items.map (fun i => i.subtotal)).sum|) :
    ∃ e, build inv mr recon = Except.error e := by
  rcases hb : build inv mr recon with e | p
  · exact ⟨e, rfl⟩
  · exfalso
    obtain ⟨f1, f2, f3, -, f5, -⟩ := build_ok_facts inv mr recon p hb
    rcases h with h | h | h | h
    · exact f1 h
    · exact f2 h
    · exact f3 h
    · exact absurd h (not_lt.mpr f5)

/-- C5: the builder fails with a ValidationError when the match tier is none,
when a required invoice field (SupplierInvoiceIDByInvcgParty, DocumentDate) is
missing or empty, or when the gross amount differs from the sum of the line
item subtotals beyond the fixed tolerance; it is a pure transform, and on
success the payload is fully typed — the gross amount a number equal to the
invoice's, the date in canonical YYYY-MM-DD form. -/
theorem builder_validates (inv : Invoice) (mr : MatchResult)
    (recon : List Outcome) :
    (mr.tier = Tier.none → ∃ e, build inv mr recon = Except.error e) ∧
    (inv.invoiceNumber = "" → ∃ e, build inv mr recon = Except.error e) ∧
    (inv.documentDate = "" → ∃ e, build inv mr recon = Except.error e) ∧
    (amountTolerance <
        |inv.grossAmount - (inv.items.map (fun i => i.subtotal)).sum| →
      ∃ e, build inv mr recon = Except.error e) ∧
    (∀ p, build inv mr recon = Except.ok p →
      p.supplierInvoiceIDByInvcgParty = inv.invoiceNumber ∧
      p.supplierInvoiceIDByInvcgParty ≠ "" ∧
      isIsoDate p.documentDate = true ∧
      p.invoiceGrossAmount = inv.grossAmount ∧
      mr.tier ≠ Tier.none) := by
  refine ⟨fun h => build_error_of inv mr recon (Or.inl h),
    fun h => build_error_of inv mr recon (Or.inr (Or.inl h)),
    fun h => build_error_of inv mr recon (Or.inr (Or.inr (Or.inl h))),
    fun h => build_error_of inv mr recon (Or.inr (Or.inr (Or.inr h))),
    fun p hp => ?_⟩
  obtain ⟨f1, f2, -, f4, -, f6, f7, f8⟩ := build_ok_facts inv mr recon p hp
  exact ⟨f6, f6 ▸ f2, f7 ▸ f4, f8, f1⟩

theorem builder_validates_witness :
    ∃ e, build ⟨"", "Acme", "123", "2024-01-01", 0, []⟩ noMatch []
      = Except.error e :=
  (builder_validates ⟨"", "Acme", "123", "2024-01-01", 0, []⟩ noMatch []).2.1 rfl

theorem minByCode_mem (b : SupplierRecord) (l : List SupplierRecord) :
    minByCode b l ∈ b :: l := by
  induction l generalizing b with
  | nil => simp [minByCode]
  | cons c rest ih =>
    unfold minByCode
    by_cases h : c.code < b.code
    · rw [if_pos h]
      have := ih c
      simp only [List.mem_cons] at this ⊢
      tauto
    · rw [if_neg h]
      have := ih b
      simp only [List.mem_cons] at this ⊢
      tauto

theorem minByCode_le (b : SupplierRecord) (l : List SupplierRecord) :
    ∀ d ∈ b :: l, (minByCode b l).code ≤ d.code := by
  induction l generalizing b with
  | nil =>
    intro d hd
    simp only [List.mem_cons, List.not_mem_nil, or_false] at hd
    subst hd
    simp [minByCode]
  | cons c rest ih =>
    intro d hd
    simp only [List.mem_cons] at hd
    unfold minByCode
    by_cases h : c.code < b.code
    · rw [if_pos h]
      rcases hd with h1 | h1 | h1
      · rw [h1]
        exact le_trans (ih c c (List.mem_cons_self c rest)) (le_of_lt h)
      · rw [h1]
        exact ih c c (List.mem_cons_self c rest)
      · exact ih c d (List.mem_cons_of_mem c h1)
    · rw [if_neg h]
      rcases hd with h1 | h1 | h1
      · rw [h1]
        exact ih b b (List.mem_cons_self b rest)
      · rw [h1]
        exact le_trans (ih b b (List.mem_cons_self b rest)) (not_lt.mp h)
      · exact ih b d (List.mem_cons_of_mem b h1)

theorem two_le_length_of_mem_ne (l : List SupplierRecord)
    (c d : SupplierRecord) (hc : c ∈ l) (hd : d ∈ l) (hne : c ≠ d) :
    2 ≤ l.length := by
  rcases l with - | ⟨a, rest⟩
  · simp at hc
  · rcases rest with - | ⟨b, rest2⟩
    · simp only [List.mem_singleton] at hc hd
      exact absurd (hc.trans hd.symm) hne
    · simp only [List.length_cons]
      omega

theorem erase_ne_nil (l : List SupplierRecord) (x c d : SupplierRecord)
    (hc : c ∈ l) (hd : d ∈ l) (hne : c ≠ d) : l.erase x ≠ [] := by
  have h2 : 2 ≤ l.length := two_le_length_of_mem_ne l c d hc hd hne
  intro h
  by_cases hx : x ∈ l
  · have hlen := List.length_erase_of_mem hx
    rw [h] at hlen
    simp only [List.length_nil] at hlen
    omega
  · rw [List.erase_of_not_mem hx] at h
    subst h
    simp at hc

/-- C2: whenever some candidate's normalized tax number equals the invoice's
normalized tax number, the resolver returns tier exact_tax with score 1
regardless of the names; the selected candidate has the lexicographically
smallest code among the matching candidates, and when another matching
candidate exists the ambiguity is recorded in a nonempty runner-up list. -/
theorem resolver_exact_tax_priority (name tax : String)
    (cands : List SupplierRecord) (ai : Unit → Option (SupplierRecord × ℚ))
    (h : ∃ c ∈ cands, normalizeTax c.taxNumber = normalizeTax tax) :
    (resolve name tax cands ai).tier = Tier.exact_tax ∧
    (resolve name tax cands ai).score = 1 ∧
    ∃ best, (resolve name tax cands ai).supplier = some best ∧ best ∈ cands ∧
      normalizeTax best.taxNumber = normalizeTax tax ∧
      (∀ d ∈ cands, normalizeTax d.taxNumber = normalizeTax tax →
        best.code ≤ d.code) ∧
      (∀ d ∈ cands, normalizeTax d.taxNumber = normalizeTax tax → d ≠ best →
        (resolve name tax cands ai).runnerUps ≠ []) := by
  obtain ⟨c, hc, hcn⟩ := h
  have hcne : cands ≠ [] := List.ne_nil_of_mem hc
  have hcf : c ∈ cands.filter
      (fun d => normalizeTax d.taxNumber == normalizeTax tax) :=
    List.mem_filter.mpr ⟨hc, beq_iff_eq.mpr hcn⟩
  rcases hm : cands.filter
      (fun d => normalizeTax d.taxNumber == normalizeTax tax) with - | ⟨m, rest⟩
  · rw [hm] at hcf
    simp at hcf
  · have hstrat : strategyExactTax tax cands = some
        ⟨some (minByCode m rest), Tier.exact_tax, 1,
          (m :: rest).erase (minByCode m rest)⟩ := by
      unfold strategyExactTax
      rw [hm]
    have hres : resolve name tax cands ai =
        ⟨some (minByCode m rest), Tier.exact_tax, 1,
          (m :: rest).erase (minByCode m rest)⟩ := by
      unfold resolve resolveAux
      rw [if_neg hcne, hstrat]
    have hmem : ∀ d ∈ cands, normalizeTax d.taxNumber = normalizeTax tax →
        d ∈ m :: rest := by
      intro d hd hdn
      rw [← hm]
      exact List.mem_filter.mpr ⟨hd, beq_iff_eq.mpr hdn⟩
    have hbestf : minByCode m rest ∈ cands.filter
        (fun d => normalizeTax d.taxNumber == normalizeTax tax) := by
      rw [hm]
      exact minByCode_mem m rest
    obtain ⟨hbc, hbn⟩ := List.mem_filter.mp hbestf
    refine ⟨by rw [hres], by rw [hres], minByCode m rest, by rw [hres], hbc,
      beq_iff_eq.mp hbn, ?_, ?_⟩
    · intro d hd hdn
      exact minByCode_le m rest d (hmem d hd hdn)
    · intro d hd hdn hne
      rw [hres]
      exact erase_ne_nil (m :: rest) (minByCode m rest) d (minByCode m rest)
        (hmem d hd hdn) (minByCode_mem m rest) hne

theorem resolver_exact_tax_priority_witness :
    (resolve "Totally Different Name" "12-345.678"
      [⟨"S2", "Acme Corp", "12345678"⟩, ⟨"S1", "Beta LLC", "12345678"⟩]
      (fun _ => Option.none)).tier = Tier.exact_tax :=
  (resolver_exact_tax_priority "Totally Different Name" "12-345.678"
    [⟨"S2", "Acme Corp", "12345678"⟩, ⟨"S1", "Beta LLC", "12345678"⟩]
    (fun _ => Option.none)
    ⟨⟨"S2", "Acme Corp", "12345678"⟩, by simp, by decide⟩).1

/-- The well-formedness of a uniform response envelope: the status is one of
success, not_found and failure, a success carries a data field, and the other
statuses carry an error field and no data. -/
def envelopeOk {α : Type} (r : ToolResponse α) : Prop :=
  (r.status = ToolStatus.success ∧ r.data.isSome = true ∧
    r.errorMessage = Option.none) ∨
  (r.status = ToolStatus.notFound ∧ r.data = Option.none ∧
    r.errorMessage.isSome = true) ∨
  (r.status = ToolStatus.failure ∧ r.data = Option.none ∧
    r.errorMessage.isSome = true)

/-- C1 amended: the spec-modelled pipeline tool operations all return a tagged
envelope whose status is one of success, not_found and failure, with a data
field on success and an error field otherwise; the execute function of the
dice-roll server's registered tool, however, returns a plain string — the
stringified roll result or a prefixed parse-error message — not such an
envelope. -/
theorem tool_envelope_amended (name tax : String)
    (cands : List SupplierRecord) (ai : Unit → Option (SupplierRecord × ℚ))
    (sc : String) (items : List InvLine) (openPOs : List PurchaseOrder)
    (inv : Invoice) (mr : MatchResult) (recon : List Outcome)
    (ft : Nat → Option String) (post : Nat → Nat) (d : String)
    (roll : RollFn) (expr : String) :
    envelopeOk (resolveSupplierTool name tax cands ai) ∧
    envelopeOk (matchPurchaseOrdersTool sc items openPOs) ∧
    envelopeOk (buildPayloadTool inv mr recon) ∧
    envelopeOk (submitInvoiceTool ft post d) ∧
    ((∃ n, roll expr = Except.ok n ∧ executeRoll roll expr = toString n) ∨
      (∃ m, roll expr = Except.error m ∧
        executeRoll roll expr = "Error parsing dice expression: " ++ m)) := by
  refine ⟨?_, ?_, ?_, ?_, ?_⟩
  · by_cases h : (resolve name tax cands ai).tier = Tier.none
    · right
      left
      simp [resolveSupplierTool, h, envelopeOk]
    · left
      simp [resolveSupplierTool, h, envelopeOk]
  · left
    simp [matchPurchaseOrdersTool, envelopeOk]
  · rcases hb : build inv mr recon with e | p
    · right
      right
      simp [buildPayloadTool, hb]
    · left
      simp [buildPayloadTool, hb]
  · rcases hs : (submitInvoice ft post d).result with d2 | - | c
    · left
      simp [submitInvoiceTool, hs]
    · right
      right
      simp [submitInvoiceTool, hs]
    · right
      right
      simp [submitInvoiceTool, hs]
  · rcases hr : roll expr with m | n
    · right
      exact ⟨m, rfl, by simp [executeRoll, hr]⟩
    · left
      exact ⟨n, rfl, by simp [executeRoll, hr]⟩

end Spec2Proof
